import Mathlib

/-!
# Verification of the skills-validator-check validation engine

Shallow embedding of the validator core from `validators/models.py`,
`validators/validators.py` and `validators/config.py` of the
`developer-kit` repository, together with theorems settling the frozen
claims about the validation engine's behavior.

File paths are modelled as plain strings; file reading (I/O) is outside
the embedding, so `validate` takes the already-loaded document text, as
the specification's concurrency section also describes.  The external
YAML decoder (`yaml.safe_load`) is modelled as an oracle parameter.
-/

namespace DevKit

/-! ## models.py : Severity, ValidationIssue, ValidationResult -/

/-- `Severity` enum from models.py. -/
inductive Severity where
  | error
  | warning
  | info
deriving DecidableEq, Repr

/-- `ValidationIssue` dataclass from models.py (`file_path` as a string). -/
structure ValidationIssue where
  severity : Severity
  filePath : String
  message : String
  lineNumber : Option Nat
  fieldName : Option String
  suggestion : Option String
deriving DecidableEq, Repr

/-- `ValidationResult` dataclass from models.py. -/
structure ValidationResult where
  filePath : String
  componentType : String
  issues : List ValidationIssue
deriving DecidableEq, Repr

/-- `ValidationResult.has_errors`. -/
def ValidationResult.hasErrors (r : ValidationResult) : Bool :=
  r.issues.any (fun i => i.severity == Severity.error)

/-- `ValidationResult.is_valid` : true iff no error-level issues. -/
def ValidationResult.isValid (r : ValidationResult) : Bool :=
  !r.hasErrors

/-- `ValidationResult.has_warnings`. -/
def ValidationResult.hasWarnings (r : ValidationResult) : Bool :=
  r.issues.any (fun i => i.severity == Severity.warning)

/-- `ValidationResult.errors` filtered view. -/
def ValidationResult.errorsOf (r : ValidationResult) : List ValidationIssue :=
  r.issues.filter (fun i => i.severity == Severity.error)

/-- `ValidationResult.warnings` filtered view. -/
def ValidationResult.warningsOf (r : ValidationResult) : List ValidationIssue :=
  r.issues.filter (fun i => i.severity == Severity.warning)

/-- `ValidationResult.add_issue` : list append of one issue. -/
def ValidationResult.addIssue (r : ValidationResult) (i : ValidationIssue) : ValidationResult :=
  { r with issues := r.issues ++ [i] }

/-- `ValidationResult.add_error` convenience constructor. -/
def ValidationResult.addError (r : ValidationResult) (message : String)
    (lineNumber : Option Nat) (fieldName : Option String)
    (suggestion : Option String) : ValidationResult :=
  r.addIssue ⟨Severity.error, r.filePath, message, lineNumber, fieldName, suggestion⟩

/-- `ValidationResult.add_warning` convenience constructor. -/
def ValidationResult.addWarning (r : ValidationResult) (message : String)
    (lineNumber : Option Nat) (fieldName : Option String)
    (suggestion : Option String) : ValidationResult :=
  r.addIssue ⟨Severity.warning, r.filePath, message, lineNumber, fieldName, suggestion⟩

/-! ## Python value domain

The validators receive frontmatter values of arbitrary Python type
(`Any`).  We model the types the embedded checks inspect.  A Python
`bool` is a subtype of `int`, so `isinstance(x, (int, float))` is true
for booleans; this is captured by `PyVal.isNumeric`. -/

inductive PyVal where
  | pyBool (b : Bool)
  | pyInt (n : Int)
  | pyFloat (q : Rat)
  | pyStr (s : String)
  | pyNone
deriving DecidableEq, Repr

/-- `isinstance(v, (int, float))` (booleans included: `bool` ⊂ `int`). -/
def PyVal.isNumeric : PyVal → Bool
  | pyBool _ => true
  | pyInt _ => true
  | pyFloat _ => true
  | _ => false

/-- Numeric value used by Python comparisons (`True == 1`, `False == 0`). -/
def PyVal.toRat : PyVal → Rat
  | pyBool b => if b then 1 else 0
  | pyInt n => (n : Rat)
  | pyFloat q => q
  | _ => 0

/-- `type(v).__name__` for the modelled types. -/
def PyVal.typeName : PyVal → String
  | pyBool _ => "bool"
  | pyInt _ => "int"
  | pyFloat _ => "float"
  | pyStr _ => "str"
  | pyNone => "NoneType"

/-- Python `str(v)` rendering for the modelled values, used in messages.
A float is rendered from its rational value (only the values actually
reached by the theorems below matter). -/
def PyVal.render : PyVal → String
  | pyBool b => if b then "True" else "False"
  | pyInt n => toString n
  | pyFloat q => toString q.num ++ "/" ++ toString q.den
  | pyStr s => s
  | pyNone => "None"

/-! ## SkillValidator._validate_trust_score (validators.py lines 729-744) -/

/-- `SkillValidator._validate_trust_score`: warn when the value is not
numeric; warn when the numeric value lies outside the inclusive range
0..10; appends the returned issues to the result. -/
def validateTrustScore (fp : String) (score : PyVal) : List ValidationIssue :=
  if !score.isNumeric then
    [⟨Severity.warning, fp,
      "context7_trust_score should be numeric, got " ++ score.typeName,
      none, some "context7_trust_score", some "Use a number between 0 and 10"⟩]
  else if !(decide (0 ≤ score.toRat) && decide (score.toRat ≤ 10)) then
    [⟨Severity.warning, fp,
      "context7_trust_score out of range: " ++ score.render,
      none, some "context7_trust_score", some "Use a value between 0 and 10"⟩]
  else []

/-! ## BaseValidator._validate_schema (validators.py lines 239-273)

Python sets have an (arbitrary but fixed) iteration order; the schema
field sets are modelled as lists carrying that order.  A schema dict
without a `"prohibited"` key behaves identically to one whose prohibited
set is empty, so the missing-key case is modelled by the empty list. -/

/-- A validation schema: required / optional / prohibited field names
(config.py `*_SCHEMA` dictionaries). -/
structure Schema where
  required : List String
  optionalFields : List String
  prohibited : List String
deriving DecidableEq, Repr

/-- Decoded frontmatter: an insertion-ordered mapping with unique keys. -/
abbrev Frontmatter : Type := List (String × PyVal)

/-- `field in frontmatter` (dict key membership). -/
def fmHas (fm : Frontmatter) (k : String) : Bool :=
  fm.any (fun p => p.1 == k)

/-- Keys of the frontmatter mapping in insertion order. -/
def fmKeys (fm : Frontmatter) : List String :=
  fm.map Prod.fst

/-- Error for a prohibited field that is present. -/
def mkProhibited (fp f : String) : ValidationIssue :=
  ⟨Severity.error, fp, "Prohibited field: \x27" ++ f ++ "\x27",
    none, some f, some ("Remove \x27" ++ f ++ "\x27 from frontmatter")⟩

/-- Error for a required field that is absent. -/
def mkMissing (fp f : String) : ValidationIssue :=
  ⟨Severity.error, fp, "Missing required field: \x27" ++ f ++ "\x27",
    none, some f, some ("Add \x27" ++ f ++ ": value\x27 to frontmatter")⟩

/-- Warning for an unknown field. -/
def mkUnknown (fp f : String) : ValidationIssue :=
  ⟨Severity.warning, fp, "Unknown field: \x27" ++ f ++ "\x27",
    none, some f, some ("Remove \x27" ++ f ++ "\x27 or verify it\x27s needed")⟩

/-- `BaseValidator._validate_schema`: sequentially appends one error per
present prohibited field, one error per absent required field, and one
warning per present field belonging to none of the three sets. -/
def validateSchema (fp : String) (s : Schema) (fm : Frontmatter) : List ValidationIssue :=
  s.prohibited.foldl
      (fun acc f => if fmHas fm f then acc ++ [mkProhibited fp f] else acc) []
  ++ s.required.foldl
      (fun acc f => if !fmHas fm f then acc ++ [mkMissing fp f] else acc) []
  ++ (fmKeys fm).foldl
      (fun acc f =>
        if !((s.required.contains f || s.optionalFields.contains f)
              || s.prohibited.contains f) then
          acc ++ [mkUnknown fp f]
        else acc) []

/-- `SKILL_SCHEMA` from config.py (set iteration order is arbitrary in
Python; a fixed order is used here). -/
def SKILL_SCHEMA : Schema :=
  ⟨["name", "description", "allowed-tools"],
   ["license", "compatibility", "metadata"],
   ["language", "framework", "context7_library", "context7_trust_score"]⟩

/-! ## BaseValidator._validate_name (validators.py lines 293-325),
config.py KEBAB_CASE_PATTERN, RESERVED_WORDS, MAX_NAME_LENGTH -/

def MAX_NAME_LENGTH : Nat := 64

/-- `RESERVED_WORDS` frozenset from config.py (as a list; only
membership is used). -/
def RESERVED_WORDS : List String :=
  ["help", "status", "model", "agents", "config",
   "compact", "memory", "slash", "command", "skills",
   "init", "clone", "add", "commit", "push", "pull",
   "test", "debug", "run", "build", "deploy"]

/-- ASCII case folding; models Python `str.lower()` on the character
range relevant to the reserved-word comparison (the reserved words are
all ASCII). -/
def asciiLower (c : Char) : Char :=
  if 'A' ≤ c && c ≤ 'Z' then Char.ofNat (c.toNat + 32) else c

/-- `name.lower()` (ASCII range). -/
def pyLower (s : String) : String := ⟨s.data.map asciiLower⟩

def isLowerAlpha (c : Char) : Bool := 'a' ≤ c && c ≤ 'z'

def isDigitCh (c : Char) : Bool := '0' ≤ c && c ≤ '9'

def isLowerAlnum (c : Char) : Bool := isLowerAlpha c || isDigitCh c

/-- Matcher for the part `[a-z0-9]*([-.][a-z0-9]+)*` of
`KEBAB_CASE_PATTERN` after its first character.  The flag records
whether a separator was just consumed (then at least one `[a-z0-9]`
must follow); the regex is deterministic, so no backtracking is
needed. -/
def kebabScan : Bool → List Char → Bool
  | needAl, [] => !needAl
  | needAl, c :: cs =>
      if isLowerAlnum c then kebabScan false cs
      else if (c = '-' || c = '.') && !needAl then kebabScan true cs
      else false

/-- Full match of `[a-z][a-z0-9]*([-.][a-z0-9]+)*`. -/
def kebabCore : List Char → Bool
  | [] => false
  | c :: cs => isLowerAlpha c && kebabScan false cs

/-- `KEBAB_CASE_PATTERN.match(name)` is not None: the pattern is
`^[a-z][a-z0-9]*([-.][a-z0-9]+)*$` and Python's `$` also matches just
before one trailing newline at the end of the string. -/
def kebabMatchPy (s : List Char) : Bool :=
  kebabCore s || (s.getLast? == some '\n' && kebabCore s.dropLast)

/-- Error for a non-string name value. -/
def mkNameNotString (fp : String) (v : PyVal) : ValidationIssue :=
  ⟨Severity.error, fp, "Name must be a string, got " ++ v.typeName,
    none, some "name", some "Ensure name is a plain string value"⟩

/-- Error for a name exceeding `MAX_NAME_LENGTH`. -/
def mkNameTooLong (fp : String) (n : Nat) : ValidationIssue :=
  ⟨Severity.error, fp,
    "Name too long: " ++ toString n ++ " characters (max 64)",
    none, some "name", some "Shorten name to 64 characters or less"⟩

/-- Error for a name failing `KEBAB_CASE_PATTERN`. -/
def mkNameFormat (fp name : String) : ValidationIssue :=
  ⟨Severity.error, fp, "Invalid name format: \x27" ++ name ++ "\x27",
    none, some "name", some "Use kebab-case (e.g., \x27my-component-name\x27)"⟩

/-- `', '.join(sorted(RESERVED_WORDS)[:5])` used in the reserved-word
suggestion text. -/
def reservedPreview : String :=
  String.intercalate ", "
    ((RESERVED_WORDS.mergeSort (fun a b => decide (a ≤ b))).take 5)

/-- Error for a reserved word used as name. -/
def mkNameReserved (fp name : String) : ValidationIssue :=
  ⟨Severity.error, fp, "Reserved word used as name: \x27" ++ name ++ "\x27",
    none, some "name",
    some ("Choose a different name (reserved: " ++ reservedPreview ++ "...)")⟩

/-- `BaseValidator._validate_name`: non-strings get a single type error;
for strings, the three independent checks (length bound, kebab pattern,
reserved word) each append their own error. -/
def validateName (fp : String) (name : PyVal) : List ValidationIssue :=
  match name with
  | PyVal.pyStr s =>
      (if s.length > MAX_NAME_LENGTH then [mkNameTooLong fp s.length] else [])
      ++ (if !kebabMatchPy s.data then [mkNameFormat fp s] else [])
      ++ (if RESERVED_WORDS.contains (pyLower s) then [mkNameReserved fp s] else [])
  | v => [mkNameNotString fp v]

/-! ## CommandValidator._validate_section_order (validators.py 1053-1135)
and COMMAND_SECTIONS_ORDER (config.py 288-297) -/

def COMMAND_SECTIONS_ORDER : List String :=
  ["overview", "usage", "arguments", "current_context", "execution_steps",
   "execution_instructions", "integration_with_sub_agents", "examples"]

/-- `section_order_indices[name]`: canonical rank of an ordered section. -/
def sectionRank (name : String) : Nat :=
  List.indexOf name COMMAND_SECTIONS_ORDER

/-- One step of the ordering walk: `last_order_index` is carried as the
second component (initially `-1`); a rank below it is a violation and
leaves it unchanged, otherwise the rank becomes the new
`last_order_index`. -/
def soStep (acc : Nat × Int) (r : Nat) : Nat × Int :=
  if (r : Int) < acc.2 then (acc.1 + 1, acc.2) else (acc.1, (r : Int))

/-- The ordering scan of `_validate_section_order` over the ranks of the
found sections sorted by document position.  Every violating element
appends exactly one ordering Error in the source (the three branches
only differ in the suggestion text), so the scan is modelled by the
number of ordering errors. -/
def sectionOrderViolations (ranks : List Nat) : Nat :=
  (ranks.foldl soStep ((0 : Nat), (-1 : Int))).1

/-! ## Frontmatter parsing (validators.py lines 103-237)

`validate`, `_parse_frontmatter` and `_validate_yaml_syntax_enhanced`
operate on the document text, processed as lists of characters (Python
strings are sequences of code points).  The external decoder
`yaml.safe_load` is an oracle parameter, and the overridable
`_validate_fields` / `_validate_specific` stages are function
parameters; the theorems hold for every instantiation. -/

/-- The double-quote character. -/
def dqc : Char := Char.ofNat 34

/-- The single-quote character. -/
def sqc : Char := Char.ofNat 39

/-- Whitespace characters removed by Python `str.strip()` (ASCII range). -/
def pyIsSpace (c : Char) : Bool :=
  c = ' ' || c = '\t' || c = '\n' || c = '\r' || c = '\x0b' || c = '\x0c'

/-- `line.strip()`. -/
def pyStrip (l : List Char) : List Char :=
  ((l.dropWhile pyIsSpace).reverse.dropWhile pyIsSpace).reverse

/-- `text.split(sep)` for a one-character separator. -/
def splitOnChar (sep : Char) : List Char → List (List Char)
  | [] => [[]]
  | c :: rest =>
      if c = sep then [] :: splitOnChar sep rest
      else
        match splitOnChar sep rest with
        | [] => [[c]]
        | h :: t => (c :: h) :: t

/-- `s.startswith(pat)`: `pat` is a prefix of `l`. -/
def listStarts : List Char → List Char → Bool
  | [], _ => true
  | _ :: _, [] => false
  | p :: ps, c :: cs => p == c && listStarts ps cs

/-- First index at which the literal `pat` occurs in the scanned list. -/
def findSubFrom (pat : List Char) : List Char → Nat → Option Nat
  | [], i => if listStarts pat [] then some i else none
  | c :: cs, i =>
      if listStarts pat (c :: cs) then some i else findSubFrom pat cs (i + 1)

/-- `re.search` position of a literal pattern.  The closing-delimiter
regex `\n---\s*\n?` has an optional tail, so its leftmost match starts
exactly at the first occurrence of the literal `"\n---"`. -/
def findSub (pat l : List Char) : Option Nat := findSubFrom pat l 0

def hasSub (pat l : List Char) : Bool := (findSub pat l).isSome

/-- After the first `)` reached, the regex `\([^)]+\):` requires `:`
next; `[^)]+` cannot backtrack past a `)`, so the `)` matched is always
the first one after the opening parenthesis. -/
def parCloseScan : List Char → Bool
  | [] => false
  | c :: rest => if c = ')' then listStarts [':'] rest else parCloseScan rest

/-- Does `\([^)]+\):` match at the head of the list? -/
def parHere : List Char → Bool
  | '(' :: c :: rest => !(c = ')') && parCloseScan (c :: rest)
  | _ => false

def parSearchFrom : List Char → Nat → Option Nat
  | [], _ => none
  | c :: cs, i => if parHere (c :: cs) then some i else parSearchFrom cs (i + 1)

/-- `re.search(r'\([^)]+\):', s)`: index of the leftmost match. -/
def parSearch (l : List Char) : Option Nat := parSearchFrom l 0

/-- Distance (1-based) to the first `)` of the list. -/
def distToClose : List Char → Nat
  | [] => 0
  | ')' :: _ => 1
  | _ :: rest => 1 + distToClose rest

/-- `unquoted_match.group()`: the matched text, starting at the `(` the
suffix begins with and ending at the `:` after the first `)`. -/
def parGroup (s : List Char) : List Char := s.take (distToClose (s.drop 1) + 2)

/-- Matches `[0-9]*\)` after the first digit of `\([0-9]+\)`. -/
def parNumClose : List Char → Bool
  | [] => false
  | c :: rest => if c = ')' then true else isDigitCh c && parNumClose rest

/-- Does `\([0-9]+\)` match at the head of the list? -/
def parNumHere : List Char → Bool
  | '(' :: c :: rest => isDigitCh c && parNumClose (c :: rest)
  | _ => false

/-- `re.search(r'\([0-9]+\)', s)` is not None. -/
def hasParNum : List Char → Bool
  | [] => false
  | c :: cs => parNumHere (c :: cs) || hasParNum cs

/-- Suggestion text of the parenthesized-colon error (pattern 1). -/
def parSuggestionText : String :=
  "Use single quotes instead of double quotes for strings containing \x27):\x27 patterns (e.g., \x27(1):\x27). YAML interprets \x27):\x27 as a key-value separator in unquoted strings."

/-- Pattern-1 error: parenthesized-colon token in an unquoted string. -/
def mkYamlParen (fp : String) (n : Nat) (g : String) : ValidationIssue :=
  ⟨Severity.error, fp,
    "Potential YAML syntax error: \x27" ++ g ++ "\x27 in unquoted string",
    some n, none, some parSuggestionText⟩

/-- Pattern-2 error: unbalanced quotes on a quoted value line. -/
def mkYamlUnbalanced (fp : String) (n : Nat) : ValidationIssue :=
  ⟨Severity.error, fp,
    "Unbalanced quotes in YAML value at line " ++ toString n,
    some n, none, some "Ensure all quotes are properly closed"⟩

/-- Pattern-3 warning: double-quoted string containing a `):` pattern. -/
def mkYamlDq (fp : String) (n : Nat) : ValidationIssue :=
  ⟨Severity.warning, fp,
    "Double-quoted string contains \x27):\x27 pattern which may cause issues with some YAML parsers",
    some n, none,
    some "Consider using single quotes instead of double quotes for strings containing \x27):\x27 patterns (e.g., \x27(1):\x27, \x27(2):\x27)"⟩

/-- Identifies pattern-1 errors by their fixed suggestion text (the
three heuristic issue shapes carry pairwise distinct literal
suggestions). -/
def isParenIssue (i : ValidationIssue) : Bool :=
  i.suggestion == some parSuggestionText

/-- One iteration of the line loop of
`_validate_yaml_syntax_enhanced`: the issues appended for this line, in
append order (pattern 1, pattern 2, pattern 3). -/
def lineIssues (fp : String) (n : Nat) (line : List Char) : List ValidationIssue :=
  let st := pyStrip line
  if st.isEmpty || listStarts ['#'] st then []
  else if st.getLast? == some ':' then []
  else
    (match parSearch st with
     | some i =>
         if ((st.take i).count dqc + (st.take i).count sqc) % 2 = 0 then
           [mkYamlParen fp n ⟨parGroup (st.drop i)⟩]
         else []
     | none => [])
    ++ (if st.contains ':' && !listStarts ['-', ' '] st then
          if listStarts [dqc] st || listStarts [sqc] st then
            if st.count sqc % 2 = 1 || st.count dqc % 2 = 1 then
              [mkYamlUnbalanced fp n]
            else []
          else []
        else [])
    ++ (if st.contains dqc then
          if hasSub [')', ':'] st || hasParNum st then
            if st.count dqc ≥ 2 then [mkYamlDq fp n] else []
          else []
        else [])

/-- `_validate_yaml_syntax_enhanced`: all issues appended by the pass
(lines numbered from 1) together with its `issues_found` flag.  The
source sets the flag exactly in the two error-appending branches, so it
equals the presence of an error-severity issue in the appended list. -/
def yamlEnhanced (fp : String) (yaml : List Char) : List ValidationIssue × Bool :=
  let issues :=
    ((List.enumFrom 1 (splitOnChar '\n' yaml)).map
      (fun p => lineIssues fp p.1 p.2)).flatten
  (issues, issues.any (fun i => i.severity == Severity.error))

/-- Outcome of the external `yaml.safe_load` call on the frontmatter
block: a mapping, `None`, a non-mapping value, or a raised `YAMLError`
with its reported line and problem text. -/
inductive YamlLoad where
  | asDict (fm : Frontmatter)
  | asNone
  | asOther
  | asError (line : Nat) (problem : String)

/-- Error for a document not starting with the opening delimiter. -/
def mkMissingFm (fp : String) : ValidationIssue :=
  ⟨Severity.error, fp, "Missing YAML frontmatter", some 1, none,
    some "Add YAML frontmatter at the beginning: ---\\nname: ...\\n---"⟩

/-- Error when the closing-delimiter search fails. -/
def mkUnclosedFm (fp : String) : ValidationIssue :=
  ⟨Severity.error, fp, "Unclosed YAML frontmatter", some 1, none,
    some "Add closing \x27---\x27 after frontmatter"⟩

/-- Error for frontmatter decoding to a non-mapping value. -/
def mkNonMapping (fp : String) : ValidationIssue :=
  ⟨Severity.error, fp, "Frontmatter must be a YAML mapping", some 1, none,
    some "Ensure frontmatter contains key-value pairs"⟩

/-- Error for a `yaml.YAMLError` raised by the decoder. -/
def mkInvalidYaml (fp : String) (n : Nat) (problem : String) : ValidationIssue :=
  ⟨Severity.error, fp, "Invalid YAML syntax: " ++ problem, some n, none,
    some "Fix the YAML syntax error"⟩

/-- `BaseValidator._parse_frontmatter`: returns the decoded mapping (or
`none` on a hard stop) and the issues appended while parsing. -/
def parseFrontmatter (loader : List Char → YamlLoad) (fp : String)
    (content : List Char) : Option Frontmatter × List ValidationIssue :=
  if !listStarts ['-', '-', '-'] content then (none, [mkMissingFm fp])
  else
    match findSub ['\n', '-', '-', '-'] (content.drop 3) with
    | none => (none, [mkUnclosedFm fp])
    | some i =>
        let yaml := (content.drop 3).take i
        let pass := yamlEnhanced fp yaml
        if pass.2 then (none, pass.1)
        else
          match loader yaml with
          | YamlLoad.asDict fm => (some fm, pass.1)
          | YamlLoad.asNone => (some [], pass.1)
          | YamlLoad.asOther => (none, pass.1 ++ [mkNonMapping fp])
          | YamlLoad.asError n p => (none, pass.1 ++ [mkInvalidYaml fp n p])

/-- `BaseValidator.validate` after the file read: parse the
frontmatter, stop on a hard parse failure, otherwise run the schema,
field and component-specific stages on the decoded mapping. -/
def validate (loader : List Char → YamlLoad) (schemaD : Schema)
    (fieldsF : Frontmatter → List ValidationIssue)
    (specificF : Frontmatter → List Char → List ValidationIssue)
    (fp ct : String) (content : List Char) : ValidationResult :=
  match parseFrontmatter loader fp content with
  | (none, issues) => ⟨fp, ct, issues⟩
  | (some fm, issues) =>
      ⟨fp, ct,
        issues ++ validateSchema fp schemaD fm ++ fieldsF fm ++ specificF fm content⟩

/-- A `yaml.safe_load` oracle decoding `name: test` for the concrete
inputs of the delimiter counterexample. -/
def stubLoadName : List Char → YamlLoad :=
  fun _ => YamlLoad.asDict [("name", PyVal.pyStr "test")]

/-- Document whose only delimiter-like line after the opening one is
`---x` (begins with the delimiter, followed by a non-whitespace
character). -/
def c7Content : String := "---\nname: test\n---x"

/-- Frontmatter line whose value is double-quoted and contains a
parenthesized-colon token preceded (inside the quotes) by an
apostrophe. -/
def c6Line : String := "desc: \x22it\x27s (1): ok\x22"

/-! ## SkillValidator._check_path_depth (validators.py lines 674-710) -/

/-- Warning for a reference nested more than one level deep. -/
def mkDeepRef (fp path : String) (depth : Nat) : ValidationIssue :=
  ⟨Severity.warning, fp,
    "Deep file reference: \x27" ++ path ++ "\x27 (" ++ toString depth ++ " levels deep)",
    none, none,
    some "Keep references one level deep (e.g., \x27references/FILE.md\x27, not \x27references/subdir/file.md\x27)"⟩

/-- Error for a reference with a parent-directory traversal segment. -/
def mkParentRef (fp path : String) : ValidationIssue :=
  ⟨Severity.error, fp,
    "Invalid file reference: \x27" ++ path ++ "\x27 references parent directory",
    none, none, some "Use relative paths within the skill directory only"⟩

/-- `SkillValidator._check_path_depth`: normalize with
`path.lstrip('./')` (which removes every leading `.` and `/`
character), deduplicate against the `checked_paths` set (modelled as a
list), skip paths whose first segment is not an allowed root, then add
the depth warning and the traversal error.  Returns the updated set and
the appended issues. -/
def checkPathDepth (fp : String) (path : List Char) (checked : List (List Char)) :
    List (List Char) × List ValidationIssue :=
  let p := path.dropWhile (fun c => c = '.' || c = '/')
  if checked.contains p then (checked, [])
  else
    let checked' := checked ++ [p]
    let parts := splitOnChar '/' p
    if !(parts.head? == some ("scripts".data)
          || parts.head? == some ("references".data)
          || parts.head? == some ("assets".data)) then
      (checked', [])
    else
      (checked',
        (if parts.length > 2 then [mkDeepRef fp ⟨p⟩ (parts.length - 1)] else [])
        ++ (if parts.contains ['.', '.'] then [mkParentRef fp ⟨p⟩] else []))

/-! ## Theorems settling the claims -/

/-- C1: `is_valid` is true iff no issue in the issues sequence has Error
severity; warnings and infos alone never make the result invalid. -/
theorem isValid_iff_no_error_issue (r : ValidationResult) :
    (r.isValid = true ↔ ∀ i ∈ r.issues, i.severity ≠ Severity.error) ∧
    ((∀ i ∈ r.issues, i.severity = Severity.warning ∨ i.severity = Severity.info) →
      r.isValid = true) := by
  constructor
  · simp only [ValidationResult.isValid, ValidationResult.hasErrors, Bool.not_eq_true',
      List.any_eq_false, beq_iff_eq]
  · intro h
    simp only [ValidationResult.isValid, ValidationResult.hasErrors, Bool.not_eq_true',
      List.any_eq_false, beq_iff_eq]
    intro i hi
    rcases h i hi with h1 | h1 <;> simp [h1]

/-- Witness for C1 at a concrete result holding one warning and one info. -/
theorem isValid_iff_no_error_issue_witness :
    ValidationResult.isValid
      ⟨"f.md", "skill",
        [⟨Severity.warning, "f.md", "w", none, none, none⟩,
         ⟨Severity.info, "f.md", "i", none, none, none⟩]⟩ = true :=
  (isValid_iff_no_error_issue _).2 (by decide)

/-- C9: each issue-recording operation appends exactly one issue at the end,
preserving all previously recorded issues in order, and never modifies
`file_path` or `component_type`. -/
theorem addIssue_appends_one (r : ValidationResult) (i : ValidationIssue)
    (msg : String) (ln : Option Nat) (fn : Option String) (sg : Option String) :
    ((r.addIssue i).issues = r.issues ++ [i] ∧
      (r.addIssue i).filePath = r.filePath ∧
      (r.addIssue i).componentType = r.componentType) ∧
    ((r.addError msg ln fn sg).issues
        = r.issues ++ [⟨Severity.error, r.filePath, msg, ln, fn, sg⟩] ∧
      (r.addError msg ln fn sg).filePath = r.filePath ∧
      (r.addError msg ln fn sg).componentType = r.componentType) ∧
    ((r.addWarning msg ln fn sg).issues
        = r.issues ++ [⟨Severity.warning, r.filePath, msg, ln, fn, sg⟩] ∧
      (r.addWarning msg ln fn sg).filePath = r.filePath ∧
      (r.addWarning msg ln fn sg).componentType = r.componentType) := by
  refine ⟨⟨rfl, rfl, rfl⟩, ⟨rfl, rfl, rfl⟩, ⟨rfl, rfl, rfl⟩⟩

/-! ## Generic helper lemmas -/

theorem data_append (a b : String) : (a ++ b).data = a.data ++ b.data := by
  cases a
  cases b
  rfl

theorem foldl_ite_append {α β : Type} (p : α → Bool) (mk : α → β) :
    ∀ (l : List α) (acc : List β),
      l.foldl (fun a f => if p f then a ++ [mk f] else a) acc
        = acc ++ (l.filter p).map mk := by
  intro l
  induction l with
  | nil => intro acc; simp
  | cons x xs ih =>
    intro acc
    by_cases h : p x = true
    · simp [List.filter_cons, h, ih]
    · simp only [Bool.not_eq_true] at h
      simp [List.filter_cons, h, ih]

theorem count_filter_map {α β : Type} [DecidableEq α] [DecidableEq β] {mk : α → β}
    (hinj : Function.Injective mk) (p : α → Bool) {l : List α} (hl : l.Nodup) (f : α) :
    ((l.filter p).map mk).count (mk f) = if f ∈ l ∧ p f = true then 1 else 0 := by
  rw [List.count_map_of_injective _ _ hinj]
  by_cases hp : p f = true
  · rw [List.count_filter hp]
    by_cases hm : f ∈ l
    · simp [hm, hp, List.count_eq_one_of_mem hl hm]
    · simp [hm, List.count_eq_zero_of_not_mem hm]
  · have hnm : f ∉ l.filter p := by
      simp [List.mem_filter, hp]
    simp [hp, List.count_eq_zero_of_not_mem hnm]

theorem count_map_eq_zero {α β : Type} [DecidableEq β] {mk : α → β} {y : β}
    (h : ∀ a, mk a ≠ y) (l : List α) : (l.map mk).count y = 0 := by
  apply List.count_eq_zero_of_not_mem
  intro hmem
  rcases List.mem_map.mp hmem with ⟨a, _, ha⟩
  exact h a ha

theorem fmHas_iff_mem_keys (fm : Frontmatter) (f : String) :
    fmHas fm f = true ↔ f ∈ fmKeys fm := by
  simp [fmHas, fmKeys, List.any_eq_true, List.mem_map, beq_iff_eq]

/-! ## Shape lemmas for the schema issue constructors -/

theorem mkProhibited_message_head (fp f : String) :
    (mkProhibited fp f).message.data.head? = some 'P' := by
  have h1 : "Prohibited field: \x27".data = 'P' :: "rohibited field: \x27".data := rfl
  simp [mkProhibited, data_append, h1]

theorem mkMissing_message_head (fp f : String) :
    (mkMissing fp f).message.data.head? = some 'M' := by
  have h1 : "Missing required field: \x27".data
      = 'M' :: "issing required field: \x27".data := rfl
  simp [mkMissing, data_append, h1]

theorem mkProhibited_ne_mkMissing (fp f g : String) :
    mkProhibited fp f ≠ mkMissing fp g := by
  intro h
  have hh : (mkProhibited fp f).message.data.head?
      = (mkMissing fp g).message.data.head? := by rw [h]
  rw [mkProhibited_message_head, mkMissing_message_head] at hh
  exact absurd hh (by decide)

theorem mkUnknown_ne_mkProhibited (fp f g : String) :
    mkUnknown fp f ≠ mkProhibited fp g := by
  intro h
  have hh := congrArg ValidationIssue.severity h
  simp [mkUnknown, mkProhibited] at hh

theorem mkUnknown_ne_mkMissing (fp f g : String) :
    mkUnknown fp f ≠ mkMissing fp g := by
  intro h
  have hh := congrArg ValidationIssue.severity h
  simp [mkUnknown, mkMissing] at hh

theorem mkProhibited_inj (fp : String) : Function.Injective (mkProhibited fp) := by
  intro a b h
  have hh := congrArg ValidationIssue.fieldName h
  simpa [mkProhibited] using hh

theorem mkMissing_inj (fp : String) : Function.Injective (mkMissing fp) := by
  intro a b h
  have hh := congrArg ValidationIssue.fieldName h
  simpa [mkMissing] using hh

theorem mkUnknown_inj (fp : String) : Function.Injective (mkUnknown fp) := by
  intro a b h
  have hh := congrArg ValidationIssue.fieldName h
  simpa [mkUnknown] using hh

/-- The three sequential loops of `_validate_schema` produce the
filter/map normal form, in the order prohibited, required, unknown. -/
theorem validateSchema_eq (fp : String) (s : Schema) (fm : Frontmatter) :
    validateSchema fp s fm
      = (s.prohibited.filter (fun f => fmHas fm f)).map (mkProhibited fp)
        ++ (s.required.filter (fun f => !fmHas fm f)).map (mkMissing fp)
        ++ ((fmKeys fm).filter
              (fun f => !((s.required.contains f || s.optionalFields.contains f)
                  || s.prohibited.contains f))).map (mkUnknown fp) := by
  unfold validateSchema
  rw [foldl_ite_append, foldl_ite_append, foldl_ite_append]
  simp

/-- C10: a Python boolean value of `context7_trust_score` produces no
issue at all: `bool` passes the `isinstance(score, (int, float))` check,
and both truth values (1 and 0) lie inside the inclusive range 0..10, so
neither the type warning nor the range warning is appended. -/
theorem trustScore_bool_no_issue (fp : String) (b : Bool) :
    validateTrustScore fp (PyVal.pyBool b) = [] := by
  cases b <;> rfl

/-- C3 counterexample: for the skill schema and the frontmatter
`{language: "python3"}`, the field `language` is present and belongs to
neither the required nor the optional set, yet `_validate_schema`
appends no Warning at all (the unknown-field loop explicitly skips
prohibited fields), contradicting the claim's unknown-field clause. -/
theorem schema_unknown_warning_counterexample :
    fmHas [("language", PyVal.pyStr "python3")] "language" = true ∧
    SKILL_SCHEMA.required.contains "language" = false ∧
    SKILL_SCHEMA.optionalFields.contains "language" = false ∧
    (validateSchema "SKILL.md" SKILL_SCHEMA
        [("language", PyVal.pyStr "python3")]).all
      (fun i => !(i.severity == Severity.warning)) = true := by
  decide

/-- C3 (amended): schema enforcement appends exactly one Error per
present prohibited field, one Error per absent required field, and one
Warning per present field belonging to none of the required, optional
and prohibited sets, in the group order prohibited, required, unknown. -/
theorem validateSchema_contract (fp : String) (s : Schema) (fm : Frontmatter)
    (hP : s.prohibited.Nodup) (hR : s.required.Nodup) (hK : (fmKeys fm).Nodup) :
    (validateSchema fp s fm
        = (s.prohibited.filter (fun f => fmHas fm f)).map (mkProhibited fp)
          ++ (s.required.filter (fun f => !fmHas fm f)).map (mkMissing fp)
          ++ ((fmKeys fm).filter
                (fun f => !((s.required.contains f || s.optionalFields.contains f)
                    || s.prohibited.contains f))).map (mkUnknown fp)) ∧
    (∀ f, (validateSchema fp s fm).count (mkProhibited fp f)
        = if f ∈ s.prohibited ∧ fmHas fm f = true then 1 else 0) ∧
    (∀ f, (validateSchema fp s fm).count (mkMissing fp f)
        = if f ∈ s.required ∧ fmHas fm f = false then 1 else 0) ∧
    (∀ f, (validateSchema fp s fm).count (mkUnknown fp f)
        = if fmHas fm f = true ∧ f ∉ s.required ∧ f ∉ s.optionalFields ∧ f ∉ s.prohibited
          then 1 else 0) := by
  refine ⟨validateSchema_eq fp s fm, ?_, ?_, ?_⟩
  · intro f
    rw [validateSchema_eq, List.count_append, List.count_append]
    rw [count_filter_map (mkProhibited_inj fp) _ hP f]
    rw [count_map_eq_zero (fun a h => mkProhibited_ne_mkMissing fp f a h.symm)]
    rw [count_map_eq_zero (fun a h => mkUnknown_ne_mkProhibited fp a f h)]
    simp
  · intro f
    rw [validateSchema_eq, List.count_append, List.count_append]
    rw [count_filter_map (mkMissing_inj fp) _ hR f]
    rw [count_map_eq_zero (fun a h => mkProhibited_ne_mkMissing fp a f h)]
    rw [count_map_eq_zero (fun a h => mkUnknown_ne_mkMissing fp a f h)]
    simp
  · intro f
    rw [validateSchema_eq, List.count_append, List.count_append]
    rw [count_filter_map (mkUnknown_inj fp) _ hK f]
    rw [count_map_eq_zero (fun a h => (mkUnknown_ne_mkProhibited fp f a) h.symm)]
    rw [count_map_eq_zero (fun a h => (mkUnknown_ne_mkMissing fp f a) h.symm)]
    have hiff : (f ∈ fmKeys fm
          ∧ (!((s.required.contains f || s.optionalFields.contains f)
              || s.prohibited.contains f)) = true)
        ↔ (fmHas fm f = true ∧ f ∉ s.required ∧ f ∉ s.optionalFields ∧ f ∉ s.prohibited) := by
      rw [← fmHas_iff_mem_keys]
      simp [and_assoc]
    rw [if_congr hiff rfl rfl]
    simp

theorem mem_ite_singleton {β : Type} (c : Prop) [Decidable c] (x y : β) :
    (x ∈ (if c then [y] else ([] : List β))) ↔ (c ∧ x = y) := by
  by_cases h : c <;> simp [h]

theorem mkNameTooLong_message_head (fp : String) (n : Nat) :
    (mkNameTooLong fp n).message.data.head? = some 'N' := by
  have h1 : "Name too long: ".data = 'N' :: "ame too long: ".data := rfl
  simp [mkNameTooLong, data_append, h1]

theorem mkNameFormat_message_head (fp s : String) :
    (mkNameFormat fp s).message.data.head? = some 'I' := by
  have h1 : "Invalid name format: \x27".data
      = 'I' :: "nvalid name format: \x27".data := rfl
  simp [mkNameFormat, data_append, h1]

theorem mkNameReserved_message_head (fp s : String) :
    (mkNameReserved fp s).message.data.head? = some 'R' := by
  have h1 : "Reserved word used as name: \x27".data
      = 'R' :: "eserved word used as name: \x27".data := rfl
  simp [mkNameReserved, data_append, h1]

theorem mkNameTooLong_ne_mkNameFormat (fp : String) (n : Nat) (s : String) :
    mkNameTooLong fp n ≠ mkNameFormat fp s := by
  intro h
  have hh : (mkNameTooLong fp n).message.data.head?
      = (mkNameFormat fp s).message.data.head? := by rw [h]
  rw [mkNameTooLong_message_head, mkNameFormat_message_head] at hh
  exact absurd hh (by decide)

theorem mkNameTooLong_ne_mkNameReserved (fp : String) (n : Nat) (s : String) :
    mkNameTooLong fp n ≠ mkNameReserved fp s := by
  intro h
  have hh : (mkNameTooLong fp n).message.data.head?
      = (mkNameReserved fp s).message.data.head? := by rw [h]
  rw [mkNameTooLong_message_head, mkNameReserved_message_head] at hh
  exact absurd hh (by decide)

theorem mkNameFormat_ne_mkNameReserved (fp s t : String) :
    mkNameFormat fp s ≠ mkNameReserved fp t := by
  intro h
  have hh : (mkNameFormat fp s).message.data.head?
      = (mkNameReserved fp t).message.data.head? := by rw [h]
  rw [mkNameFormat_message_head, mkNameReserved_message_head] at hh
  exact absurd hh (by decide)

/-- C4: for a string name, all three identifier checks run
independently: a string matching the kebab pattern, avoiding the
reserved set and within the length bound yields no issue, and each
violated check contributes exactly its own specific error, regardless
of the outcome of the other two. -/
theorem validateName_independent_checks (fp s : String) :
    ((kebabMatchPy s.data = true ∧ RESERVED_WORDS.contains (pyLower s) = false
        ∧ s.length ≤ MAX_NAME_LENGTH) →
      validateName fp (PyVal.pyStr s) = []) ∧
    ((mkNameTooLong fp s.length ∈ validateName fp (PyVal.pyStr s))
      ↔ s.length > MAX_NAME_LENGTH) ∧
    ((mkNameFormat fp s ∈ validateName fp (PyVal.pyStr s))
      ↔ kebabMatchPy s.data = false) ∧
    ((mkNameReserved fp s ∈ validateName fp (PyVal.pyStr s))
      ↔ RESERVED_WORDS.contains (pyLower s) = true) := by
  have h12 : (mkNameTooLong fp s.length = mkNameFormat fp s) ↔ False :=
    iff_false_intro (mkNameTooLong_ne_mkNameFormat fp s.length s)
  have h13 : (mkNameTooLong fp s.length = mkNameReserved fp s) ↔ False :=
    iff_false_intro (mkNameTooLong_ne_mkNameReserved fp s.length s)
  have h21 : (mkNameFormat fp s = mkNameTooLong fp s.length) ↔ False :=
    iff_false_intro (mkNameTooLong_ne_mkNameFormat fp s.length s).symm
  have h23 : (mkNameFormat fp s = mkNameReserved fp s) ↔ False :=
    iff_false_intro (mkNameFormat_ne_mkNameReserved fp s s)
  have h31 : (mkNameReserved fp s = mkNameTooLong fp s.length) ↔ False :=
    iff_false_intro (mkNameTooLong_ne_mkNameReserved fp s.length s).symm
  have h32 : (mkNameReserved fp s = mkNameFormat fp s) ↔ False :=
    iff_false_intro (mkNameFormat_ne_mkNameReserved fp s s).symm
  refine ⟨?_, ?_, ?_, ?_⟩
  · rintro ⟨hk, hr, hl⟩
    have hr' : pyLower s ∉ RESERVED_WORDS := by
      intro hmem
      rw [(by simp : (RESERVED_WORDS.contains (pyLower s) = true) ↔ pyLower s ∈ RESERVED_WORDS).mpr hmem] at hr
      exact absurd hr (by decide)
    simp [validateName, hk, hr', Nat.not_lt.mpr hl]
  · simp [validateName, List.mem_append, mem_ite_singleton, h12, h13]
  · simp [validateName, List.mem_append, mem_ite_singleton, h21, h23]
  · simp [validateName, List.mem_append, mem_ite_singleton, h31, h32]

/-- Witness for C4 at the valid identifier `my-component` and checks of
each single-violation case. -/
theorem validateName_independent_checks_witness :
    validateName "f" (PyVal.pyStr "my-component") = [] ∧
    (mkNameFormat "f" "My_Component" ∈ validateName "f" (PyVal.pyStr "My_Component")) ∧
    (mkNameReserved "f" "test" ∈ validateName "f" (PyVal.pyStr "test")) := by
  refine ⟨(validateName_independent_checks "f" "my-component").1 (by decide), ?_, ?_⟩
  · exact (validateName_independent_checks "f" "My_Component").2.2.1.mpr (by decide)
  · exact (validateName_independent_checks "f" "test").2.2.2.mpr (by decide)

theorem foldl_soStep_fst_shift (l : List Nat) :
    ∀ (c : Nat) (m : Int),
      (l.foldl soStep (c, m)).1 = c + (l.foldl soStep (0, m)).1 := by
  induction l with
  | nil => intro c m; simp
  | cons r rs ih =>
    intro c m
    by_cases h : (r : Int) < m
    · simp only [List.foldl_cons, soStep, h, if_pos]
      rw [ih (c + 1) m, ih 1 m]
      omega
    · simp only [List.foldl_cons, soStep, h, if_neg, not_false_iff]
      rw [ih c (r : Int)]

theorem foldl_soStep_snd (l : List Nat) :
    ∀ (c : Nat) (m : Int),
      (l.foldl soStep (c, m)).2 = l.foldl (fun (a : Int) (q : Nat) => max a (q : Int)) m := by
  induction l with
  | nil => intro c m; simp
  | cons r rs ih =>
    intro c m
    by_cases h : (r : Int) < m
    · simp only [List.foldl_cons, soStep, h, if_pos]
      rw [ih]
      have hm : max m (r : Int) = m := max_eq_left (le_of_lt h)
      rw [hm]
    · simp only [List.foldl_cons, soStep, h, if_neg, not_false_iff]
      rw [ih]
      have hm : max m (r : Int) = (r : Int) := max_eq_right (le_of_not_lt h)
      rw [hm]

theorem lt_foldl_max (r : Nat) (l : List Nat) :
    ∀ (m : Int),
      ((r : Int) < l.foldl (fun (a : Int) (q : Nat) => max a (q : Int)) m)
        ↔ ((r : Int) < m ∨ ∃ q ∈ l, r < q) := by
  induction l with
  | nil => intro m; simp
  | cons x xs ih =>
    intro m
    simp only [List.foldl_cons]
    rw [ih (max m (x : Int))]
    constructor
    · rintro (h | h)
      · rcases lt_max_iff.mp h with h1 | h1
        · exact Or.inl h1
        · exact Or.inr ⟨x, List.mem_cons_self x xs, by exact_mod_cast h1⟩
      · rcases h with ⟨q, hq, hrq⟩
        exact Or.inr ⟨q, List.mem_cons_of_mem x hq, hrq⟩
    · rintro (h | ⟨q, hq, hrq⟩)
      · exact Or.inl (lt_max_iff.mpr (Or.inl h))
      · rcases List.mem_cons.mp hq with rfl | hq'
        · exact Or.inl (lt_max_iff.mpr (Or.inr (by exact_mod_cast hrq)))
        · exact Or.inr ⟨q, hq', hrq⟩

theorem foldl_soStep_zero_iff (l : List Nat) :
    ∀ (m : Int),
      ((l.foldl soStep (0, m)).1 = 0
        ↔ (List.Chain' (fun a b => a ≤ b) l ∧ ∀ h ∈ l.head?, m ≤ (h : Int))) := by
  induction l with
  | nil => intro m; simp
  | cons r rs ih =>
    intro m
    by_cases h : (r : Int) < m
    · simp only [List.foldl_cons, soStep, h, if_pos]
      rw [foldl_soStep_fst_shift]
      constructor
      · intro hc; omega
      · rintro ⟨_, hhead⟩
        have := hhead r (by simp)
        omega
    · simp only [List.foldl_cons, soStep, h, if_neg, not_false_iff]
      rw [ih (r : Int), List.chain'_cons']
      constructor
      · rintro ⟨hch, hhd⟩
        refine ⟨⟨?_, hch⟩, ?_⟩
        · intro y hy
          have := hhd y hy
          exact_mod_cast this
        · intro x hx
          simp at hx
          subst hx
          omega
      · rintro ⟨⟨hhd, hch⟩, _⟩
        refine ⟨hch, ?_⟩
        intro y hy
        have := hhd y hy
        exact_mod_cast this

theorem list_eq_of_map_eq {α β : Type} (f : α → β) :
    ∀ (a b : List α), a.map f = b.map f →
      (∀ x ∈ a, ∀ y ∈ b, f x = f y → x = y) → a = b := by
  intro a
  induction a with
  | nil =>
    intro b h _
    cases b with
    | nil => rfl
    | cons y ys => simp at h
  | cons x xs ih =>
    intro b h hinj
    cases b with
    | nil => simp at h
    | cons y ys =>
      simp only [List.map_cons, List.cons.injEq] at h
      have hxy : x = y := hinj x (by simp) y (by simp) h.1
      subst hxy
      have : xs = ys := by
        apply ih ys h.2
        intro u hu v hv
        exact hinj u (by simp [hu]) v (by simp [hv])
      rw [this]

/-- C5: the ordering scan counts exactly the sections whose rank is
below the running maximum: appending a section adds one error exactly
when an earlier section has a greater rank; the error count is zero iff
the rank sequence is monotonically non-decreasing; and over the
arrangements of the eight ordered command sections, the canonical
arrangement is the unique one with zero ordering errors. -/
theorem sectionOrder_monotonicity :
    (∀ (l : List Nat) (r : Nat),
      sectionOrderViolations (l ++ [r])
        = sectionOrderViolations l + (if ∃ q ∈ l, r < q then 1 else 0)) ∧
    (∀ l : List Nat,
      sectionOrderViolations l = 0 ↔ List.Chain' (fun a b => a ≤ b) l) ∧
    (∀ sections : List String, sections.Perm COMMAND_SECTIONS_ORDER →
      (sectionOrderViolations (sections.map sectionRank) = 0
        ↔ sections = COMMAND_SECTIONS_ORDER)) := by
  have hzero : ∀ l : List Nat,
      sectionOrderViolations l = 0 ↔ List.Chain' (fun a b => a ≤ b) l := by
    intro l
    unfold sectionOrderViolations
    rw [foldl_soStep_zero_iff l (-1)]
    constructor
    · rintro ⟨hch, _⟩; exact hch
    · intro hch
      refine ⟨hch, ?_⟩
      intro x _
      omega
  refine ⟨?_, hzero, ?_⟩
  · intro l r
    unfold sectionOrderViolations
    rw [List.foldl_append]
    simp only [List.foldl_cons, List.foldl_nil]
    rcases hfold : l.foldl soStep ((0 : Nat), (-1 : Int)) with ⟨c, m⟩
    have hm : m = l.foldl (fun (a : Int) (q : Nat) => max a (q : Int)) (-1) := by
      have := foldl_soStep_snd l 0 (-1)
      rw [hfold] at this
      exact this
    by_cases h : (r : Int) < m
    · have hex : ∃ q ∈ l, r < q := by
        have := (lt_foldl_max r l (-1)).mp (hm ▸ h)
        rcases this with h1 | h1
        · omega
        · exact h1
      simp [soStep, h, hex]
    · have hex : ¬ ∃ q ∈ l, r < q := by
        intro hc
        exact h (hm ▸ ((lt_foldl_max r l (-1)).mpr (Or.inr hc)))
      simp [soStep, h, hex]
  · intro sections hperm
    have hcanon : COMMAND_SECTIONS_ORDER.map sectionRank = List.range 8 := by decide
    have hpm : (sections.map sectionRank).Perm (List.range 8) := by
      rw [← hcanon]
      exact hperm.map sectionRank
    constructor
    · intro h0
      have hch := (hzero (sections.map sectionRank)).mp h0
      have hpair : List.Pairwise (fun a b => a ≤ b) (sections.map sectionRank) :=
        List.chain'_iff_pairwise.mp hch
      have hsorted : List.Sorted (fun a b => a ≤ b) (sections.map sectionRank) := hpair
      have heq : sections.map sectionRank = List.range 8 :=
        List.eq_of_perm_of_sorted hpm hsorted (List.sorted_le_range 8)
      apply list_eq_of_map_eq sectionRank sections COMMAND_SECTIONS_ORDER
      · rw [heq, hcanon]
      · intro x hx y hy hxy
        have hx' : x ∈ COMMAND_SECTIONS_ORDER := hperm.mem_iff.mp hx
        have hall : ∀ u ∈ COMMAND_SECTIONS_ORDER, ∀ v ∈ COMMAND_SECTIONS_ORDER,
            sectionRank u = sectionRank v → u = v := by decide
        exact hall x hx' y hy hxy
    · intro heq
      subst heq
      decide

/-- Witness for C5: the canonical command-section arrangement yields
zero ordering errors and the arrangement with Usage before Overview
yields at least one. -/
theorem sectionOrder_monotonicity_witness :
    sectionOrderViolations (COMMAND_SECTIONS_ORDER.map sectionRank) = 0 ∧
    sectionOrderViolations
      ((["usage", "overview", "arguments", "current_context", "execution_steps",
         "execution_instructions", "integration_with_sub_agents",
         "examples"]).map sectionRank) ≠ 0 := by
  constructor
  · exact (sectionOrder_monotonicity.2.2 COMMAND_SECTIONS_ORDER (List.Perm.refl _)).mpr rfl
  · intro h
    have hperm : (["usage", "overview", "arguments", "current_context", "execution_steps",
        "execution_instructions", "integration_with_sub_agents",
        "examples"]).Perm COMMAND_SECTIONS_ORDER :=
      List.Perm.swap "overview" "usage" _
    have := (sectionOrder_monotonicity.2.2 _ hperm).mp h
    exact absurd this (by decide)

/-- Witness for C3's amended contract: one unknown-field warning for the
extra field of a concrete skill frontmatter. -/
theorem validateSchema_contract_witness :
    (validateSchema "f" SKILL_SCHEMA
        [("name", PyVal.pyStr "x"), ("extra", PyVal.pyNone)]).count
      (mkUnknown "f" "extra") = 1 := by
  have h := (validateSchema_contract "f" SKILL_SCHEMA
      [("name", PyVal.pyStr "x"), ("extra", PyVal.pyNone)]
      (by decide) (by decide) (by decide)).2.2.2 "extra"
  rw [h, if_pos]
  refine ⟨by decide, by decide, by decide, by decide⟩


/-- Issues appended by one line of the heuristic pass have one of the
three pattern shapes. -/
theorem lineIssues_shapes (fp : String) (n : Nat) (line : List Char) :
    ∀ j ∈ lineIssues fp n line,
      (∃ g, j = mkYamlParen fp n g) ∨ j = mkYamlUnbalanced fp n ∨ j = mkYamlDq fp n := by
  intro j hj
  simp only [lineIssues] at hj
  split at hj
  · simp at hj
  · split at hj
    · simp at hj
    · rw [List.mem_append, List.mem_append] at hj
      rcases hj with (hj | hj) | hj
      · split at hj
        · split at hj
          · simp at hj
            exact Or.inl ⟨_, hj⟩
          · simp at hj
        · simp at hj
      · split at hj
        · split at hj
          · split at hj
            · simp at hj
              exact Or.inr (Or.inl hj)
            · simp at hj
          · simp at hj
        · simp at hj
      · split at hj
        · split at hj
          · split at hj
            · simp at hj
              exact Or.inr (Or.inr hj)
            · simp at hj
          · simp at hj
        · simp at hj

/-- Issues appended by the whole heuristic pass have one of the three
pattern shapes. -/
theorem yamlEnhanced_shapes (fp : String) (yaml : List Char) :
    ∀ j ∈ (yamlEnhanced fp yaml).1,
      (∃ n g, j = mkYamlParen fp n g) ∨ (∃ n, j = mkYamlUnbalanced fp n)
        ∨ (∃ n, j = mkYamlDq fp n) := by
  intro j hj
  simp only [yamlEnhanced, List.mem_flatten, List.mem_map] at hj
  rcases hj with ⟨l, ⟨p, hp, rfl⟩, hjl⟩
  rcases lineIssues_shapes fp p.1 p.2 j hjl with ⟨g, hg⟩ | h | h
  · exact Or.inl ⟨p.1, g, hg⟩
  · exact Or.inr (Or.inl ⟨p.1, h⟩)
  · exact Or.inr (Or.inr ⟨p.1, h⟩)

/-- The unclosed-frontmatter error is never produced by the heuristic
pass (the suggestion texts of the pass issues all differ from its
suggestion). -/
theorem mkUnclosedFm_notin_pass (fp fp2 : String) (yaml : List Char) :
    mkUnclosedFm fp ∉ (yamlEnhanced fp2 yaml).1 := by
  intro hmem
  rcases yamlEnhanced_shapes fp2 yaml _ hmem with ⟨n, g, h⟩ | ⟨n, h⟩ | ⟨n, h⟩
  · have hs := congrArg ValidationIssue.suggestion h
    simp only [mkUnclosedFm, mkYamlParen] at hs
    exact absurd hs (by decide)
  · have hs := congrArg ValidationIssue.suggestion h
    simp only [mkUnclosedFm, mkYamlUnbalanced] at hs
    exact absurd hs (by decide)
  · have hs := congrArg ValidationIssue.suggestion h
    simp only [mkUnclosedFm, mkYamlDq] at hs
    exact absurd hs (by decide)

/-- C8: the code contradicts its own docstring (which lists
`../outside/file.md` as Invalid): `path.lstrip('./')` strips the
leading parent-directory traversal, leaving a path whose first segment
is not an allowed root, so `_check_path_depth` appends no issue at all
for this reference, although it contains a traversal segment. -/
theorem pathTraversal_skipped_code_bug :
    (splitOnChar '/' ("../outside/file.md".data)).contains ("..".data) = true ∧
    (checkPathDepth "SKILL.md" ("../outside/file.md".data) []).2 = [] := by
  decide

/-- C2: when the text does not begin with the opening delimiter, or the
closing-delimiter search fails, `validate` returns exactly one
structural parse Error and no issue from any later stage, for every
decoder oracle, schema, field stage and component-specific stage. -/
theorem validate_halts_on_delimiter_error (loader : List Char → YamlLoad)
    (schemaD : Schema) (fieldsF : Frontmatter → List ValidationIssue)
    (specificF : Frontmatter → List Char → List ValidationIssue)
    (fp ct : String) (content : List Char)
    (h : listStarts ['-', '-', '-'] content = false
        ∨ findSub ['\n', '-', '-', '-'] (content.drop 3) = none) :
    ((validate loader schemaD fieldsF specificF fp ct content).issues = [mkMissingFm fp]
      ∨ (validate loader schemaD fieldsF specificF fp ct content).issues = [mkUnclosedFm fp])
    ∧ (validate loader schemaD fieldsF specificF fp ct content).issues.length = 1
    ∧ (validate loader schemaD fieldsF specificF fp ct content).errorsOf.length = 1 := by
  by_cases hs : listStarts ['-', '-', '-'] content = true
  · have hf : findSub ['\n', '-', '-', '-'] (content.drop 3) = none := by
      rcases h with h1 | h1
      · rw [hs] at h1
        exact absurd h1 (by decide)
      · exact h1
    have hv : validate loader schemaD fieldsF specificF fp ct content
        = ⟨fp, ct, [mkUnclosedFm fp]⟩ := by
      simp [validate, parseFrontmatter, hs, hf]
    rw [hv]
    refine ⟨Or.inr rfl, rfl, ?_⟩
    simp [ValidationResult.errorsOf, mkUnclosedFm]
  · have hs' : listStarts ['-', '-', '-'] content = false :=
      Bool.eq_false_iff.mpr hs
    have hv : validate loader schemaD fieldsF specificF fp ct content
        = ⟨fp, ct, [mkMissingFm fp]⟩ := by
      simp [validate, parseFrontmatter, hs']
    rw [hv]
    refine ⟨Or.inl rfl, rfl, ?_⟩
    simp [ValidationResult.errorsOf, mkMissingFm]

/-- Witness for C2 at a document with no frontmatter at all. -/
theorem validate_halts_on_delimiter_error_witness :
    (validate stubLoadName SKILL_SCHEMA (fun _ => []) (fun _ _ => [])
      "f" "skill" ("no frontmatter here".data)).issues.length = 1 :=
  (validate_halts_on_delimiter_error stubLoadName SKILL_SCHEMA
    (fun _ => []) (fun _ _ => []) "f" "skill" ("no frontmatter here".data)
    (Or.inl (by decide))).2.1

/-- C7 counterexample: in `c7Content` no line after the opening one
consists solely of the delimiter, even after stripping (the only
candidate is `---x`), so per the claim parsing should stop with the
unclosed-frontmatter error; instead the prefix match `\n---` accepts
that line as the closing delimiter and parsing completes with no issue
and a decoded mapping. -/
theorem closing_delimiter_counterexample :
    ((splitOnChar '\n' c7Content.data).tail.all
        (fun l => !(pyStrip l == ['-', '-', '-'])) = true) ∧
    (parseFrontmatter stubLoadName "f" c7Content.data).1
        = some [("name", PyVal.pyStr "test")] ∧
    (parseFrontmatter stubLoadName "f" c7Content.data).2 = [] := by
  decide

/-- C7 (amended): the closing delimiter is recognized at the first
position where a newline is followed by the three-character delimiter,
regardless of any trailing characters on that line; the unclosed
error is raised (and parsing stops) exactly when no such occurrence
exists. -/
theorem closing_delimiter_amended (loader : List Char → YamlLoad) (fp : String)
    (content : List Char) (h : listStarts ['-', '-', '-'] content = true) :
    (findSub ['\n', '-', '-', '-'] (content.drop 3) = none →
      parseFrontmatter loader fp content = (none, [mkUnclosedFm fp])) ∧
    (∀ i, findSub ['\n', '-', '-', '-'] (content.drop 3) = some i →
      mkUnclosedFm fp ∉ (parseFrontmatter loader fp content).2) := by
  constructor
  · intro hf
    simp [parseFrontmatter, h, hf]
  · intro i hf hmem
    simp only [parseFrontmatter, h, hf] at hmem
    by_cases hp : (yamlEnhanced fp ((content.drop 3).take i)).2 = true
    · simp only [hp, Bool.not_true, Bool.not_false, if_true, if_false, ite_true, ite_false] at hmem
      simp at hmem
      exact mkUnclosedFm_notin_pass fp fp ((content.drop 3).take i) hmem
    · have hp' : (yamlEnhanced fp ((content.drop 3).take i)).2 = false :=
        Bool.eq_false_iff.mpr hp
      simp only [hp', Bool.not_true, Bool.not_false, ite_true, ite_false] at hmem
      simp at hmem
      cases hld : loader ((content.drop 3).take i) with
      | asDict fm =>
        rw [hld] at hmem
        simp at hmem
        exact mkUnclosedFm_notin_pass fp fp _ hmem
      | asNone =>
        rw [hld] at hmem
        simp at hmem
        exact mkUnclosedFm_notin_pass fp fp _ hmem
      | asOther =>
        rw [hld] at hmem
        simp only [List.mem_append, List.mem_singleton] at hmem
        rcases hmem with hmem | hmem
        · exact mkUnclosedFm_notin_pass fp fp _ hmem
        · have hs := congrArg ValidationIssue.suggestion hmem
          simp only [mkUnclosedFm, mkNonMapping] at hs
          exact absurd hs (by decide)
      | asError nn pp =>
        rw [hld] at hmem
        simp only [List.mem_append, List.mem_singleton] at hmem
        rcases hmem with hmem | hmem
        · exact mkUnclosedFm_notin_pass fp fp _ hmem
        · have hs := congrArg ValidationIssue.suggestion hmem
          simp only [mkUnclosedFm, mkInvalidYaml] at hs
          exact absurd hs (by decide)

theorem isParen_mkYamlParen (fp : String) (n : Nat) (g : String) :
    isParenIssue (mkYamlParen fp n g) = true := by
  simp [isParenIssue, mkYamlParen]

theorem isParen_mkYamlUnbalanced (fp : String) (n : Nat) :
    isParenIssue (mkYamlUnbalanced fp n) = false := by
  show ((some "Ensure all quotes are properly closed" : Option String)
      == some parSuggestionText) = false
  decide

theorem isParen_mkYamlDq (fp : String) (n : Nat) :
    isParenIssue (mkYamlDq fp n) = false := by
  show ((some "Consider using single quotes instead of double quotes for strings containing \x27):\x27 patterns (e.g., \x27(1):\x27, \x27(2):\x27)" : Option String)
      == some parSuggestionText) = false
  decide

theorem any_isParen_part2 (fp : String) (n : Nat) (st : List Char) :
    (List.any (if st.contains ':' && !listStarts ['-', ' '] st then
          if listStarts [dqc] st || listStarts [sqc] st then
            if st.count sqc % 2 = 1 || st.count dqc % 2 = 1 then
              [mkYamlUnbalanced fp n]
            else []
          else []
        else []) isParenIssue) = false := by
  split_ifs <;> simp [isParen_mkYamlUnbalanced fp n]

theorem any_isParen_part3 (fp : String) (n : Nat) (st : List Char) :
    (List.any (if st.contains dqc then
          if hasSub [')', ':'] st || hasParNum st then
            if st.count dqc ≥ 2 then [mkYamlDq fp n] else []
          else []
        else []) isParenIssue) = false := by
  split_ifs <;> simp [isParen_mkYamlDq fp n]

/-- C6 counterexample: the frontmatter line `desc: "it's (1): ok"` has
its value wrapped in exactly two double quotes (at index 6 and at the
end) with the parenthesized-colon token inside them (match at index
12), yet the heuristic pass raises the Error as well as the Warning:
the quote parity before the match is even (one double quote plus one
apostrophe), so the claim's downgrade-to-Warning clause fails. -/
theorem doubleQuoted_paren_counterexample :
    (findSub [dqc] (pyStrip c6Line.data) = some 6 ∧
      (pyStrip c6Line.data).getLast? = some dqc ∧
      (pyStrip c6Line.data).count dqc = 2 ∧
      parSearch (pyStrip c6Line.data) = some 12) ∧
    (lineIssues "f" 3 c6Line.data).any (fun i => i.severity == Severity.error) = true ∧
    (lineIssues "f" 3 c6Line.data).any (fun i => i.severity == Severity.warning) = true := by
  decide

/-- C6 (amended): on a non-key, non-comment, non-empty line, the
parenthesized-colon Error is raised exactly when the number of quote
characters (of both kinds) preceding the first match is even — also
inside a double-quoted value; a line containing a double-quoted span
with such a token yields the portability Warning in addition, not
instead; and the pass stops parsing (returns None) exactly when it
raised at least one Error, while Warnings alone never stop parsing. -/
theorem yamlHeuristic_contract (fp : String) :
    (∀ (n : Nat) (line : List Char) (i : Nat),
      (pyStrip line).isEmpty = false →
      listStarts ['#'] (pyStrip line) = false →
      ((pyStrip line).getLast? == some ':') = false →
      parSearch (pyStrip line) = some i →
      (((lineIssues fp n line).any isParenIssue = true)
        ↔ (((pyStrip line).take i).count dqc
            + ((pyStrip line).take i).count sqc) % 2 = 0)) ∧
    (∀ (n : Nat) (line : List Char),
      (pyStrip line).isEmpty = false →
      listStarts ['#'] (pyStrip line) = false →
      ((pyStrip line).getLast? == some ':') = false →
      (pyStrip line).contains dqc = true →
      (hasSub [')', ':'] (pyStrip line) || hasParNum (pyStrip line)) = true →
      (pyStrip line).count dqc ≥ 2 →
      mkYamlDq fp n ∈ lineIssues fp n line) ∧
    (∀ (loader : List Char → YamlLoad) (content : List Char) (i : Nat),
      listStarts ['-', '-', '-'] content = true →
      findSub ['\n', '-', '-', '-'] (content.drop 3) = some i →
      (((yamlEnhanced fp ((content.drop 3).take i)).2 = true →
          parseFrontmatter loader fp content
            = (none, (yamlEnhanced fp ((content.drop 3).take i)).1)) ∧
        ((yamlEnhanced fp ((content.drop 3).take i)).2 = false →
          ∀ fm, loader ((content.drop 3).take i) = YamlLoad.asDict fm →
            parseFrontmatter loader fp content
              = (some fm, (yamlEnhanced fp ((content.drop 3).take i)).1)))) := by
  refine ⟨?_, ?_, ?_⟩
  · intro n line i h1 h2 h3 h4
    simp only [lineIssues, h1, h2, h3, h4]
    simp only [Bool.or_self, Bool.false_eq_true, if_false]
    rw [List.any_append, List.any_append, any_isParen_part2, any_isParen_part3]
    by_cases hP : (((pyStrip line).take i).count dqc
        + ((pyStrip line).take i).count sqc) % 2 = 0
    · simp [hP, isParen_mkYamlParen]
    · simp [hP]
  · intro n line h1 h2 h3 hc hpat hcount
    simp only [lineIssues, h1, h2, h3]
    simp only [Bool.or_self, Bool.false_eq_true, if_false]
    have h3mem : mkYamlDq fp n ∈ (if (pyStrip line).contains dqc then
          if hasSub [')', ':'] (pyStrip line) || hasParNum (pyStrip line) then
            if (pyStrip line).count dqc ≥ 2 then [mkYamlDq fp n] else []
          else []
        else ([] : List ValidationIssue)) := by
      rw [if_pos hc, if_pos hpat, if_pos hcount]
      exact List.mem_singleton_self _
    simp only [List.mem_append]
    exact Or.inr h3mem
  · intro loader content i hst hf
    constructor
    · intro hpass
      simp [parseFrontmatter, hst, hf, hpass]
    · intro hpass fm hld
      simp [parseFrontmatter, hst, hf, hpass, hld]

/-- Witness for C6's amended claim: the parity rule on `x (1): y`
(zero quotes before the match), the additional Warning on
`say "(1): hi"`, and both halting behaviors of the pass on concrete
documents. -/
theorem yamlHeuristic_contract_witness :
    (lineIssues "f" 1 ("x (1): y".data)).any isParenIssue = true ∧
    mkYamlDq "f" 2 ∈ lineIssues "f" 2 ("say \x22(1): hi\x22".data) ∧
    parseFrontmatter stubLoadName "f" ("---\na: (1): b\n---\n".data)
      = (none, (yamlEnhanced "f" ("\na: (1): b".data)).1) ∧
    parseFrontmatter stubLoadName "f" ("---\na: b\n---\n".data)
      = (some [("name", PyVal.pyStr "test")], (yamlEnhanced "f" ("\na: b".data)).1) := by
  refine ⟨?_, ?_, ?_, ?_⟩
  · exact ((yamlHeuristic_contract "f").1 1 ("x (1): y".data) 2
      (by decide) (by decide) (by decide) (by decide)).mpr (by decide)
  · exact (yamlHeuristic_contract "f").2.1 2 ("say \x22(1): hi\x22".data)
      (by decide) (by decide) (by decide) (by decide) (by decide) (by decide)
  · exact ((yamlHeuristic_contract "f").2.2 stubLoadName
      ("---\na: (1): b\n---\n".data) 10 (by decide) (by decide)).1 (by decide)
  · exact ((yamlHeuristic_contract "f").2.2 stubLoadName
      ("---\na: b\n---\n".data) 5 (by decide) (by decide)).2 (by decide)
      [("name", PyVal.pyStr "test")] rfl

/-- Witness for C7's amended claim on a frontmatter block with no
newline-delimiter occurrence at all. -/
theorem closing_delimiter_amended_witness :
    parseFrontmatter stubLoadName "f" ("---\nabc".data)
      = (none, [mkUnclosedFm "f"]) :=
  (closing_delimiter_amended stubLoadName "f" ("---\nabc".data)
    (by decide)).1 (by decide)


end DevKit
